import Mathlib

/-!
Shallow embedding of `ambilight-player/src/main.rs` (the playback and
synchronization engine of the jellyfin-ambilight repository), together with
theorems checking the natural-language specification against it.

Conventions of the embedding:
* `f32`/`f64` arithmetic is modelled over `ℚ` (exact rational arithmetic);
  the transcendental `powf` primitive, whose value is irrational for general
  exponents, is taken as an explicit function parameter `pw` and every theorem
  that touches it only constrains it at exponent 1, where `powf x 1 = x`
  holds exactly.
* byte streams are `List ℕ` (little-endian where multi-byte), fallible reads
  return `Option`/`Except`, and the real-time loop is explicit state passing
  over `PlayerState` with the wall clock passed in as a rational `now`.
-/

namespace Ambilight

/-- `clamp_f` from main.rs: clamp `v` into `[lo, hi]` (the NaN guard of the
source has no rational counterpart; `ℚ` has no NaN). -/
def clamp_f (v lo hi : ℚ) : ℚ :=
  if v < lo then lo else if v > hi then hi else v

/-- `remap_order` from main.rs: remap byte order for the LED strip,
interpreting inputs as R,G,B. -/
def remap_order (r g b : ℕ) (order : String) : ℕ × ℕ × ℕ :=
  if order = "GRB" then (g, r, b)
  else if order = "BRG" then (b, r, g)
  else if order = "BGR" then (b, g, r)
  else if order = "GBR" then (g, b, r)
  else (r, g, b)

/-- `rotate_led_frame` from main.rs: rotate LED frame data by
`rotation_leds` positions; output position `i` receives the bytes of source
LED `(i + rotation_leds) % total_leds`.  Positions beyond
`total_leds * bytes_per_led` stay zero, as in the source's zero-filled
destination vector. -/
def rotate_led_frame (frame : List ℕ) (rotation_leds total_leds bytes_per_led : ℕ) :
    List ℕ :=
  if rotation_leds = 0 ∨ total_leds = 0 then frame
  else
    (List.range frame.length).map fun j =>
      if j < total_leds * bytes_per_led then
        frame.getD
          ((((j / bytes_per_led) + rotation_leds) % total_leds) * bytes_per_led
            + j % bytes_per_led) 0
      else 0

/-- Source-index computation of the resampler (main.rs lines 385-391 and
409-415): target index `t` reads from source index
`(t * total_src) / total_tgt`, with the source's `total_tgt > 0` guard. -/
def src_index (t total_src total_tgt : ℕ) : ℕ :=
  if 0 < total_tgt then (t * total_src) / total_tgt else 0

/-- Rust `f32::round`: round half away from zero. -/
def rustRound (x : ℚ) : ℚ :=
  if 0 ≤ x then ((⌊x + 1/2⌋ : ℤ) : ℚ) else ((-⌊-x + 1/2⌋ : ℤ) : ℚ)

/-- Rust `as u8` on a float: saturating cast, truncating toward zero. -/
def f32_as_u8 (x : ℚ) : ℕ :=
  if x ≤ 0 then 0 else if 255 ≤ x then 255 else (⌊x⌋).toNat

/-- Little-endian value of a byte list. -/
def leNum (bs : List ℕ) : ℕ :=
  bs.foldr (fun b acc => b + 256 * acc) 0

/-- `Read::read_exact` over a byte list: succeeds only when `n` bytes are
available, returning the bytes read and the rest of the stream. -/
def readExact (n : ℕ) (bs : List ℕ) : Option (List ℕ × List ℕ) :=
  if n ≤ bs.length then some (bs.take n, bs.drop n) else none

/-- IEEE-754 binary32 decoding of a 32-bit pattern to an exact rational;
`none` for the non-finite patterns (infinities and NaNs). -/
def decodeF32 (bits : ℕ) : Option ℚ :=
  let sign : ℕ := bits / 2 ^ 31 % 2
  let expo : ℕ := bits / 2 ^ 23 % 2 ^ 8
  let mant : ℕ := bits % 2 ^ 23
  if expo = 255 then none
  else
    let mag : ℚ :=
      if expo = 0 then (mant : ℚ) / 2 ^ 149
      else ((2 ^ 23 + mant : ℕ) : ℚ) * 2 ^ expo / 2 ^ 150
    some (if sign = 1 then -mag else mag)

/-- Header of the `AMb2` format as read by main.rs lines 121-146. -/
structure Header where
  fps : ℚ
  top_src : ℕ
  bottom_src : ℕ
  left_src : ℕ
  right_src : ℕ
  rgbw : Bool
deriving DecidableEq, Repr

def bytes_per_led_of (h : Header) : ℕ := if h.rgbw then 4 else 3

/-- `frame_size` from main.rs line 142. -/
def frame_size (h : Header) : ℕ :=
  (h.top_src + h.right_src + h.bottom_src + h.left_src) * bytes_per_led_of h

def magicAMb2 : List ℕ := [0x41, 0x4D, 0x62, 0x32]

/-- Frame-rate validation of main.rs line 134: finite, above `0.001`, at most
300, else 0 (a failed 4-byte read also yields 0 via `unwrap_or(0.0)`). -/
def fps_of_bits (o : Option ℚ) : ℚ :=
  match o with
  | some q => if 1/1000 < q ∧ q ≤ 300 then q else 0
  | none => 0

/-- Header parsing of main.rs lines 121-146: 4-byte magic (only `AMb2` is
recognized; anything else is the fatal `Invalid magic header` exit), then an
f32 frame rate (read failure tolerated as 0.0), four u16 per-edge zone
counts and a u8 format selector (read failures fatal). -/
def parseHeader (bs : List ℕ) : Except String (Header × List ℕ) :=
  match readExact 4 bs with
  | none => .error "Failed to read magic"
  | some (magic, r1) =>
    if magic = magicAMb2 then
      let fpsOpt := (readExact 4 r1).bind fun p => decodeF32 (leNum p.1)
      let r2 := r1.drop 4
      match readExact 2 r2 with
      | none => .error "Failed to read top"
      | some (tb, r3) =>
        match readExact 2 r3 with
        | none => .error "Failed to read bottom"
        | some (bb, r4) =>
          match readExact 2 r4 with
          | none => .error "Failed to read left"
          | some (lb, r5) =>
            match readExact 2 r5 with
            | none => .error "Failed to read right"
            | some (rb, r6) =>
              match readExact 1 r6 with
              | none => .error "Failed to read fmt"
              | some (fb, r7) =>
                .ok ({ fps := fps_of_bits fpsOpt,
                       top_src := leNum tb, bottom_src := leNum bb,
                       left_src := leNum lb, right_src := leNum rb,
                       rgbw := leNum fb == 1 }, r7)
    else .error "Invalid magic header"

/-- Frame-record loading loop of main.rs lines 164-176: repeatedly read an
8-byte timestamp and a `fsz`-byte payload (each `read_exact n` succeeds
exactly when `n` bytes remain, yielding `take n`/`drop n`, as in
`readExact`); a failed timestamp read ends the loop, and a short payload
discards the trailing timestamp with it. -/
def loadFrames (fsz : ℕ) (bs : List ℕ) : List ℕ × List (List ℕ) :=
  if 8 ≤ bs.length then
    if fsz ≤ (bs.drop 8).length then
      let p := loadFrames fsz ((bs.drop 8).drop fsz)
      (leNum (bs.take 8) :: p.1, (bs.drop 8).take fsz :: p.2)
    else ([], [])
  else ([], [])
termination_by bs.length
decreasing_by
  simp only [List.length_drop]
  omega

/-- The whole load phase: header then frame records. -/
def load_stream (bs : List ℕ) : Except String (Header × (List ℕ × List (List ℕ))) :=
  (parseHeader bs).map fun p => (p.1, loadFrames (frame_size p.1) p.2)

/-! ## The color pipeline (main.rs lines 349-481) -/

/-- The tunables of the pipeline, read from the environment in main.rs
lines 99-115 (each with its documented default). -/
structure Config where
  gamma_base : ℚ
  saturation : ℚ
  brightness_target : ℚ
  led_order : String
  gamma_red : ℚ
  gamma_green : ℚ
  gamma_blue : ℚ
  red_boost : ℚ
  blue_boost : ℚ
  green_boost : ℚ
  min_led_brightness : ℚ

/-- Rec.709 luminance weights as used at main.rs lines 362 and 461. -/
def zone_lum (r g b : ℚ) : ℚ :=
  (2126/10000) * r + (7152/10000) * g + (722/10000) * b

/-- Average raw luminance of a frame (main.rs lines 355-367): a sweep at
stride `bpl` over every index with two more bytes available. -/
def avg_lum (raw : List ℕ) (bpl : ℕ) : ℚ :=
  let idxs := (List.range raw.length).filter fun i =>
    i % bpl == 0 && decide (i + 2 < raw.length)
  if idxs.length = 0 then 0
  else
    (idxs.map fun i =>
      zone_lum ((raw.getD i 0 : ℕ) : ℚ) ((raw.getD (i+1) 0 : ℕ) : ℚ)
        ((raw.getD (i+2) 0 : ℕ) : ℚ)).sum / (idxs.length : ℚ)

/-- Scene-adaptive brightness normalization factor (main.rs lines 403-406). -/
def brightness_factor_of (cfg : Config) (avg : ℚ) : ℚ :=
  let b_target := max cfg.brightness_target 1
  if 1 < avg then clamp_f ((b_target / avg) * (7/10) + 3/10) (1/20) (5/2) else 1

/-- Minimum-brightness floor stage (main.rs lines 449-466): round each
smoothed accumulator channel, raise any positive channel below its
per-channel floor to that floor, then zero the whole zone when the
resulting luminance is below half the base floor. -/
def floor_stage (min_b rBoost gBoost bBoost aR aG aB : ℚ) : ℚ × ℚ × ℚ :=
  let r_out := rustRound aR
  let g_out := rustRound aG
  let b_out := rustRound aB
  let min_r := min_b * rBoost
  let min_g := min_b * gBoost
  let min_bb := min_b * bBoost
  let r1 := if 0 < r_out ∧ r_out < min_r then min_r else r_out
  let g1 := if 0 < g_out ∧ g_out < min_g then min_g else g_out
  let b1 := if 0 < b_out ∧ b_out < min_bb then min_bb else b_out
  if zone_lum r1 g1 b1 < min_b * (1/2) then (0, 0, 0) else (r1, g1, b1)

/-- Per-zone color transform of main.rs lines 413-472: normalize, per-channel
gamma (`pw` is the `powf` primitive), saturation about the channel average,
inverse gamma, brightness scaling, EMA blend with weight `k`, floor stage and
channel remap.  Returns the new accumulator triple and the output bytes. -/
def process_zone (pw : ℚ → ℚ → ℚ) (cfg : Config) (inv_gamma brightness_factor k : ℚ)
    (rU gU bU aR aG aB : ℚ) : (ℚ × ℚ × ℚ) × (ℕ × ℕ × ℕ) :=
  let s_user := clamp_f cfg.saturation 0 5
  let min_b := max cfg.min_led_brightness 0
  let r_n := min (max (rU / 255) 0) 1
  let g_n := min (max (gU / 255) 0) 1
  let b_n := min (max (bU / 255) 0) 1
  let r_lin := pw r_n cfg.gamma_red
  let g_lin := pw g_n cfg.gamma_green
  let b_lin := pw b_n cfg.gamma_blue
  let avg_intensity := (r_lin + g_lin + b_lin) / 3
  let r_sat := avg_intensity + (r_lin - avg_intensity) * s_user
  let g_sat := avg_intensity + (g_lin - avg_intensity) * s_user
  let b_sat := avg_intensity + (b_lin - avg_intensity) * s_user
  let r_g := clamp_f (pw r_sat inv_gamma) 0 1
  let g_g := clamp_f (pw g_sat inv_gamma) 0 1
  let b_g := clamp_f (pw b_sat inv_gamma) 0 1
  let bfa := clamp_f brightness_factor (3/10) (9/5)
  let r_f := r_g * bfa * 255
  let g_f := g_g * bfa * 255
  let b_f := b_g * bfa * 255
  let aR2 := aR * (1 - k) + r_f * k
  let aG2 := aG * (1 - k) + g_f * k
  let aB2 := aB * (1 - k) + b_f * k
  let fl := floor_stage min_b cfg.red_boost cfg.green_boost cfg.blue_boost aR2 aG2 aB2
  let rm := remap_order (f32_as_u8 fl.1) (f32_as_u8 fl.2.1) (f32_as_u8 fl.2.2) cfg.led_order
  ((aR2, aG2, aB2), rm)

/-- EMA accumulator initialization (main.rs lines 381-393): sample the raw
source through the resampler into a target-length buffer. -/
def ema_init (raw : List ℕ) (total_src total_tgt bpl : ℕ) : List ℚ :=
  (List.range (total_tgt * bpl)).map fun j =>
    ((raw.getD (src_index (j / bpl) total_src total_tgt * bpl + j % bpl) 0 : ℕ) : ℚ)

/-- One frame through the resampler and color pipeline (main.rs lines
354-481): frame-level luminance statistics, then the per-zone transform over
every target index, threading the EMA accumulator and collecting output
bytes (with the RGBW white channel smoothed separately when `bpl = 4`). -/
def process_frame (pw : ℚ → ℚ → ℚ) (cfg : Config) (total_src total_tgt bpl : ℕ)
    (k : ℚ) (raw : List ℕ) (acc0 : List ℚ) : List ℚ × List ℕ :=
  let avg := avg_lum raw bpl
  let gamma_adj := clamp_f (cfg.gamma_base * (1 - (avg / 255) * (6/10))) 1 3
  let inv_gamma := 1 / gamma_adj
  let bf := brightness_factor_of cfg avg
  (List.range total_tgt).foldl
    (fun st t =>
      let acc := st.1
      let out := st.2
      let sb := src_index t total_src total_tgt * bpl
      let rU := ((raw.getD sb 0 : ℕ) : ℚ)
      let gU := ((raw.getD (sb+1) 0 : ℕ) : ℚ)
      let bU := ((raw.getD (sb+2) 0 : ℕ) : ℚ)
      let base := t * bpl
      let z := process_zone pw cfg inv_gamma bf k rU gU bU
        (acc.getD base 0) (acc.getD (base+1) 0) (acc.getD (base+2) 0)
      let acc1 := ((acc.set base z.1.1).set (base+1) z.1.2.1).set (base+2) z.1.2.2
      if bpl = 4 then
        let w_val := ((raw.getD (sb+3) 0 : ℕ) : ℚ)
        let aW := acc.getD (base+3) 0
        let aW2 := aW * (1 - k) + w_val * k
        (acc1.set (base+3) aW2,
         out ++ [z.2.1, z.2.2.1, z.2.2.2, f32_as_u8 (max (min (rustRound aW2) 255) 0)])
      else (acc1, out ++ [z.2.1, z.2.2.1, z.2.2.2]))
    (acc0, [])

/-- One playback tick's transmitted bytes (main.rs lines 347-531): initialize
the EMA accumulator on the first processed frame, run the pipeline, and apply
the input-position rotation to the finished target frame before sending. -/
def tick_output (pw : ℚ → ℚ → ℚ) (cfg : Config) (input_position total_src total_tgt bpl : ℕ)
    (k : ℚ) (raw : List ℕ) (acc : Option (List ℚ)) : List ℚ × List ℕ :=
  let accN := match acc with
    | none => ema_init raw total_src total_tgt bpl
    | some a => a
  let p := process_frame pw cfg total_src total_tgt bpl k raw accN
  let rot := if 0 < total_tgt then input_position % total_tgt else 0
  (p.1, if 0 < rot then rotate_led_frame p.2 rot total_tgt bpl else p.2)

/-! ## The synchronization engine (main.rs lines 195-569) -/

/-- The immutable data and abstracted per-frame processing the playback loop
runs over.  `processed i` stands for the datagram the resampler/pipeline
emits for frame `i`, and `ema_next i a` for the accumulator it leaves behind;
both are produced by `tick_output` in the full engine and are irrelevant to
the control-flow claims. -/
structure Params where
  timestamps_us : List ℕ
  frames_count : ℕ
  adaptive_sync_lead : ℚ
  total_tgt : ℕ
  bytes_per_led : ℕ
  processed : ℕ → List ℕ
  ema_next : ℕ → Option (List ℚ) → List ℚ

/-- Mutable playback state of main.rs: loop-local variables (frame index,
start frame, time base, pause edge detector, the `static mut` blank-on-pause
latch, the EMA accumulator) plus the mutex/atomic cells the control thread
writes (seek target, pause flag, heartbeat slot, shutdown and blank-request
flags), plus the trace of datagrams handed to the socket. -/
structure PlayerState where
  frame_index : ℕ
  start_frame : ℕ
  elapsed_base : ℚ
  anchor : ℚ
  last_paused : Bool
  sent_blank_on_pause : Bool
  ema_acc : Option (List ℚ)
  seek_target : Option ℚ
  paused : Bool
  beat : Option (ℚ × Option ℚ)
  running : Bool
  request_blank_on_exit : Bool
  sent : List (List ℕ)

/-- Control-channel commands (main.rs lines 242-262). -/
inductive Command where
  | seek (s : ℚ)
  | pause
  | resume
  | beat (pos : ℚ) (epoch : Option ℚ)
  | stop

/-- Effect of one parsed control line on the shared state (main.rs lines
242-262): SEEK stores a pending target, PAUSE/RESUME set and clear the pause
flag, BEAT fills the heartbeat slot, STOP requests a blank and clears the
running flag. -/
def apply_command : Command → PlayerState → PlayerState
  | .seek s, st => { st with seek_target := some s }
  | .pause, st => { st with paused := true }
  | .resume, st => { st with paused := false }
  | .beat p e, st => { st with beat := some (p, e) }
  | .stop, st => { st with request_blank_on_exit := true, running := false }

/-- Rust `f64 as u64`: truncate toward zero, saturating at 0 from below. -/
def qToU64 (x : ℚ) : ℕ := if x ≤ 0 then 0 else (⌊x⌋).toNat

/-- The linear scans of main.rs lines 202-203 and 275-276: index of the
first timestamp not below `x` (list length when none is). -/
def first_ge : List ℕ → ℕ → ℕ
  | [], _ => 0
  | t :: rest, x => if t < x then first_ge rest x + 1 else 0

/-- Seek handling at the top of each tick (main.rs lines 272-284): when a
target is pending, recompute the frame index and start frame from its
timestamp, reset the wall-clock anchor and elapsed-time base, and clear the
target.  Note that `ema_acc` is not touched. -/
def seek_step (P : Params) (now : ℚ) (st : PlayerState) : PlayerState :=
  match st.seek_target with
  | none => st
  | some sec =>
    let target_us := qToU64 ((sec + P.adaptive_sync_lead) * 1000000)
    let target_frame := first_ge P.timestamps_us target_us
    let fi := min target_frame P.frames_count
    { st with frame_index := fi, start_frame := min fi P.frames_count,
              anchor := now, elapsed_base := 0, seek_target := none }

/-- The all-zero datagram of target length used for pause and exit blanking
(main.rs lines 302 and 557). -/
def blank_frame (P : Params) : List ℕ :=
  List.replicate (P.total_tgt * P.bytes_per_led) 0

/-- One iteration of the playback loop (main.rs lines 270-553), with the
pacing sleeps dropped (they do not change state): guard on the loop
condition, seek handling, pause-edge bookkeeping, the blank-once pause
branch driven by the never-reset `SENT_BLANK_ON_PAUSE` latch, and otherwise
one processed frame transmitted, the heartbeat slot drained, and the frame
index advanced. -/
def tick (P : Params) (now : ℚ) (st : PlayerState) : PlayerState :=
  if ¬st.running ∨ P.frames_count ≤ st.frame_index then st
  else
    let s1 := seek_step P now st
    let paused_now := s1.paused
    let s2 := if paused_now ∧ ¬s1.last_paused then
        { s1 with elapsed_base := s1.elapsed_base + (now - s1.anchor) } else s1
    let s3 := if ¬paused_now ∧ s2.last_paused then { s2 with anchor := now } else s2
    let s4 := { s3 with last_paused := paused_now }
    if paused_now then
      if ¬s4.sent_blank_on_pause then
        { s4 with sent := s4.sent ++ [blank_frame P], sent_blank_on_pause := true }
      else s4
    else
      { s4 with ema_acc := some (P.ema_next s4.frame_index s4.ema_acc),
                sent := s4.sent ++ [P.processed s4.frame_index],
                beat := none,
                frame_index := s4.frame_index + 1 }

/-- The blank-on-exit block after the loop (main.rs lines 556-566): when a
blank was requested or the running flag was cleared, send three all-zero
frames of target length before the process ends. -/
def final_blanks (P : Params) (st : PlayerState) : PlayerState :=
  if st.request_blank_on_exit ∨ ¬st.running then
    { st with sent := st.sent ++ List.replicate 3 (blank_frame P) }
  else st

/-- The SIGINT/SIGTERM handler (main.rs lines 79-89): clear the running
flag. -/
def interrupt (st : PlayerState) : PlayerState := { st with running := false }

/-- Byte stream of a list of (timestamp bytes, payload) records. -/
def mk_stream (recs : List (List ℕ × List ℕ)) : List ℕ :=
  (recs.map fun r => r.1 ++ r.2).flatten

/-- The `powf` instantiation used by the Scenario A theorems: every exponent
reaching `powf` there is 1, where `powf x 1 = x` holds exactly. -/
def powId : ℚ → ℚ → ℚ := fun x _ => x

/-- Scenario A configuration: gamma 1 (base and per-channel), saturation 1,
floor 0, rotation 0, channel order identity, and the engine defaults for the
remaining tunables (brightness target 60, boosts 3/1/4). -/
def scenario_a_cfg : Config :=
  { gamma_base := 1, saturation := 1, brightness_target := 60, led_order := "RGB",
    gamma_red := 1, gamma_green := 1, gamma_blue := 1,
    red_boost := 3, blue_boost := 4, green_boost := 1, min_led_brightness := 0 }

def scenario_a_frame0 : List ℕ := [255, 0, 0, 0, 255, 0]

def scenario_a_frame1 : List ℕ := [0, 0, 255, 255, 255, 0]

/-- Scenario A first transmitted frame: 2 source zones, 2 target zones, RGB,
no rotation; blend weight 1 is the τ → 0 limit of `k = 1 - exp(-dt/τ)`. -/
def scenario_a_out0 (pw : ℚ → ℚ → ℚ) : List ℕ :=
  (tick_output pw scenario_a_cfg 0 2 2 3 1 scenario_a_frame0 none).2

def scenario_a_acc0 (pw : ℚ → ℚ → ℚ) : List ℚ :=
  (tick_output pw scenario_a_cfg 0 2 2 3 1 scenario_a_frame0 none).1

/-- Scenario A second transmitted frame, with the accumulator left by the
first. -/
def scenario_a_out1 (pw : ℚ → ℚ → ℚ) : List ℕ :=
  (tick_output pw scenario_a_cfg 0 2 2 3 1 scenario_a_frame1 (some (scenario_a_acc0 pw))).2

/-- A small concrete parameter set for the engine traces: two frames, two
target zones, RGB, zero sync lead, with an abstract nonzero processed
datagram. -/
def params_demo : Params :=
  { timestamps_us := [0, 41666], frames_count := 2, adaptive_sync_lead := 0,
    total_tgt := 2, bytes_per_led := 3,
    processed := fun _ => [1, 1, 1, 1, 1, 1], ema_next := fun _ _ => [] }

/-- Initial engine state at the top of the playback loop. -/
def st_start : PlayerState :=
  { frame_index := 0, start_frame := 0, elapsed_base := 0, anchor := 0,
    last_paused := false, sent_blank_on_pause := false, ema_acc := none,
    seek_target := none, paused := false, beat := none, running := true,
    request_blank_on_exit := false, sent := [] }

/-- First pause entry: a PAUSE command, then one tick. -/
def st_p1 : PlayerState := tick params_demo 1 (apply_command Command.pause st_start)

/-- Resume: a RESUME command, then one (playing) tick. -/
def st_p2 : PlayerState := tick params_demo 2 (apply_command Command.resume st_p1)

/-- Second pause entry: another PAUSE command, then one tick. -/
def st_p3 : PlayerState := tick params_demo 3 (apply_command Command.pause st_p2)

/-- Pre-seek engine state with a pending target and a populated smoothing
accumulator. -/
def st_seek : PlayerState :=
  { st_start with
    seek_target := some 1
    ema_acc := some [42]
    elapsed_base := 5
    anchor := 3 }

/-! ## Helper lemmas -/

theorem rotate_led_frame_length (frame : List ℕ) (R T bpl : ℕ) :
    (rotate_led_frame frame R T bpl).length = frame.length := by
  unfold rotate_led_frame
  split <;> simp

theorem getD_map_range {α : Type} [Inhabited α] (f : ℕ → α) (n j : ℕ) (hj : j < n) :
    ((List.range n).map f).getD j default = f j := by
  simp [List.getD, List.getElem?_map, List.getElem?_range, hj]

theorem rotate_led_frame_getD (frame : List ℕ) {R T bpl : ℕ} (hR : R ≠ 0) (hT : T ≠ 0)
    (j : ℕ) (hj : j < frame.length) (hjT : j < T * bpl) :
    (rotate_led_frame frame R T bpl).getD j 0 =
      frame.getD (((j / bpl + R) % T) * bpl + j % bpl) 0 := by
  unfold rotate_led_frame
  rw [if_neg (by simp [hR, hT])]
  rw [show (0 : ℕ) = (default : ℕ) from rfl, getD_map_range _ _ j hj]
  rw [if_pos hjT]

theorem div_mul_add_mod_self (j bpl : ℕ) (h : 0 < bpl) :
    j / bpl * bpl + j % bpl = j := by
  rw [mul_comm]
  exact Nat.div_add_mod j bpl

theorem rotate_index_lt {m T bpl j : ℕ} (hm : m < T) (hj : j < T * bpl) :
    m * bpl + j % bpl < T * bpl := by
  have hbpl : 0 < bpl := by
    rcases Nat.eq_zero_or_pos bpl with h | h
    · subst h; omega
    · exact h
  have h1 : j % bpl < bpl := Nat.mod_lt j hbpl
  have h2 : (m + 1) * bpl ≤ T * bpl := Nat.mul_le_mul_right bpl hm
  have h3 : m * bpl + j % bpl < (m + 1) * bpl := by
    rw [add_mul, one_mul]; omega
  omega

/-- A single full rotation is the identity on a frame of matching length. -/
theorem rotate_getD_reduce (frame : List ℕ) {R T bpl : ℕ} (hR : R ≠ 0) (hT : 0 < T)
    (j : ℕ) (hlen : frame.length = T * bpl) (hj : j < T * bpl) :
    (rotate_led_frame frame R T bpl).getD j 0 =
      frame.getD (((j / bpl + R) % T) * bpl + j % bpl) 0 :=
  rotate_led_frame_getD frame hR (by omega) j (by omega) hj

theorem readExact_append (n : ℕ) (xs ys : List ℕ) (h : xs.length = n) :
    readExact n (xs ++ ys) = some (xs, ys) := by
  subst h
  rw [readExact, if_pos (by simp)]
  rw [List.take_left, List.drop_left]

theorem loadFrames_trunc (fsz : ℕ) (ts short : List ℕ) (hts : ts.length = 8)
    (hshort : short.length < fsz) :
    loadFrames fsz (ts ++ short) = ([], []) := by
  have hd : (ts ++ short).drop 8 = short := by rw [← hts, List.drop_left]
  rw [loadFrames, if_pos (by simp [hts]), if_neg (by rw [hd]; omega)]

theorem loadFrames_record (fsz : ℕ) (ts payload rest : List ℕ) (hts : ts.length = 8)
    (hp : payload.length = fsz) :
    loadFrames fsz (ts ++ payload ++ rest) =
      (leNum ts :: (loadFrames fsz rest).1, payload :: (loadFrames fsz rest).2) := by
  have hd8 : (ts ++ payload ++ rest).drop 8 = payload ++ rest := by
    rw [List.append_assoc, ← hts, List.drop_left]
  have ht8 : (ts ++ payload ++ rest).take 8 = ts := by
    rw [List.append_assoc, ← hts, List.take_left]
  rw [loadFrames, if_pos (by simp [hts]), hd8, ht8,
    if_pos (by simp [hp]), show (payload ++ rest).drop fsz = rest from by
      rw [← hp, List.drop_left],
    show (payload ++ rest).take fsz = payload from by rw [← hp, List.take_left]]

theorem loadFrames_invariant (fsz : ℕ) (bs : List ℕ) :
    (loadFrames fsz bs).1.length = (loadFrames fsz bs).2.length ∧
    ∀ p ∈ (loadFrames fsz bs).2, p.length = fsz := by
  induction bs using loadFrames.induct fsz with
  | case1 x h1 h2 ih =>
    rw [loadFrames, if_pos h1, if_pos h2]
    refine ⟨by simp only [List.length_cons, ih.1], ?_⟩
    intro p hp
    rcases List.mem_cons.mp hp with h | h
    · subst h
      rw [List.length_take]
      omega
    · exact ih.2 p h
  | case2 x h1 h2 => rw [loadFrames, if_pos h1, if_neg h2]; simp
  | case3 x h1 => rw [loadFrames, if_neg h1]; simp


theorem loadFrames_drops_trailing (fsz : ℕ) (recs : List (List ℕ × List ℕ))
    (hr : ∀ r ∈ recs, r.1.length = 8 ∧ r.2.length = fsz)
    (tsb short : List ℕ) (hts : tsb.length = 8) (hshort : short.length < fsz) :
    loadFrames fsz (mk_stream recs ++ (tsb ++ short)) =
      (recs.map fun r => leNum r.1, recs.map fun r => r.2) := by
  induction recs with
  | nil =>
    simp only [mk_stream, List.map_nil, List.flatten_nil, List.nil_append]
    exact loadFrames_trunc fsz tsb short hts hshort
  | cons r rs ih =>
    have hr1 := hr r (List.mem_cons_self r rs)
    have hstream : mk_stream (r :: rs) ++ (tsb ++ short) =
        r.1 ++ r.2 ++ (mk_stream rs ++ (tsb ++ short)) := by
      simp [mk_stream, List.append_assoc]
    rw [hstream, loadFrames_record fsz r.1 r.2 _ hr1.1 hr1.2,
      ih (fun x hx => hr x (List.mem_cons_of_mem r hx))]
    simp

theorem remap_order_rgb (r g b : ℕ) : remap_order r g b "RGB" = (r, g, b) := by
  unfold remap_order
  rw [if_neg (by decide), if_neg (by decide), if_neg (by decide), if_neg (by decide)]

theorem avg_lum_nonneg (raw : List ℕ) (bpl : ℕ) : 0 ≤ avg_lum raw bpl := by
  rw [avg_lum]
  split
  · exact le_refl 0
  · apply div_nonneg
    · apply List.sum_nonneg
      intro x hx
      simp only [List.mem_map] at hx
      obtain ⟨i, -, hxi⟩ := hx
      rw [← hxi, zone_lum]
      positivity
    · positivity

/-- With `gamma_base = 1`, the scene-adaptive gamma of main.rs line 368
clamps to exactly 1, so the inverse-gamma stage is the identity exponent. -/
theorem inv_gamma_one (cfg : Config) (h1 : cfg.gamma_base = 1) (raw : List ℕ)
    (bpl : ℕ) :
    1 / clamp_f (cfg.gamma_base * (1 - (avg_lum raw bpl / 255) * (6/10))) 1 3 = 1 := by
  have hnn := avg_lum_nonneg raw bpl
  rw [h1, one_mul]
  have hle : 1 - (avg_lum raw bpl / 255) * (6/10) ≤ 1 := by
    have : 0 ≤ (avg_lum raw bpl / 255) * (6/10) := by positivity
    linarith
  rw [clamp_f]
  rcases lt_or_le (1 - (avg_lum raw bpl / 255) * (6/10)) 1 with hlt | hge
  · rw [if_pos hlt]; norm_num
  · rw [if_neg (not_lt.mpr hge), if_neg (by linarith)]
    have heq : 1 - (avg_lum raw bpl / 255) * (6/10) = 1 := le_antisymm hle hge
    rw [heq]; norm_num


theorem process_zone_pw (pw : ℚ → ℚ → ℚ) (hpw : ∀ x : ℚ, pw x 1 = x)
    (cfg : Config) (hr : cfg.gamma_red = 1) (hg : cfg.gamma_green = 1)
    (hb : cfg.gamma_blue = 1) (bf k rU gU bU aR aG aB : ℚ) :
    process_zone pw cfg 1 bf k rU gU bU aR aG aB =
      process_zone powId cfg 1 bf k rU gU bU aR aG aB := by
  simp only [process_zone, hr, hg, hb, hpw, powId]

theorem process_frame_pw (pw : ℚ → ℚ → ℚ) (hpw : ∀ x : ℚ, pw x 1 = x)
    (cfg : Config) (h1 : cfg.gamma_base = 1) (hr : cfg.gamma_red = 1)
    (hg : cfg.gamma_green = 1) (hb : cfg.gamma_blue = 1)
    (S T bpl : ℕ) (k : ℚ) (raw : List ℕ) (acc : List ℚ) :
    process_frame pw cfg S T bpl k raw acc = process_frame powId cfg S T bpl k raw acc := by
  have hinv := inv_gamma_one cfg h1 raw bpl
  simp only [process_frame]
  simp only [hinv]
  simp only [process_zone_pw pw hpw cfg hr hg hb]

theorem rustRound_nonneg {x : ℚ} (h : 0 ≤ x) : 0 ≤ rustRound x := by
  rw [rustRound, if_pos h]
  have hfl : (0 : ℤ) ≤ ⌊x + 1/2⌋ := Int.floor_nonneg.mpr (by linarith)
  exact_mod_cast hfl

/-! ## Claim theorems -/

/-- C6: for every frame buffer of `T` zones and every rotation count `N`
with `0 ≤ N < T`, rotating by `N` and then by `T - N` reproduces the
original buffer byte-for-byte. -/
theorem rotate_complementary (frame : List ℕ) (N T bpl : ℕ) (hN : N < T)
    (hlen : frame.length = T * bpl) :
    rotate_led_frame (rotate_led_frame frame N T bpl) (T - N) T bpl = frame := by
  have hT : 0 < T := by omega
  apply List.ext_getElem
  · rw [rotate_led_frame_length, rotate_led_frame_length]
  intro j h1 h2
  have hjT : j < T * bpl := hlen ▸ h2
  have hbpl : 0 < bpl := by
    rcases Nat.eq_zero_or_pos bpl with hb | hb
    · rw [hb, Nat.mul_zero] at hjT; omega
    · exact hb
  have hdiv : j / bpl < T := (Nat.div_lt_iff_lt_mul hbpl).mpr hjT
  rw [← List.getD_eq_getElem _ 0 h1, ← List.getD_eq_getElem _ 0 h2]
  by_cases hN0 : N = 0
  · subst hN0
    have hid : rotate_led_frame frame 0 T bpl = frame := by
      unfold rotate_led_frame; simp
    rw [hid, Nat.sub_zero, rotate_getD_reduce frame (by omega) hT j hlen hjT]
    congr 1
    rw [Nat.add_mod_right, Nat.mod_eq_of_lt hdiv, div_mul_add_mod_self j bpl hbpl]
  · have hTN : T - N ≠ 0 := by omega
    have hlen2 : (rotate_led_frame frame N T bpl).length = T * bpl := by
      rw [rotate_led_frame_length, hlen]
    rw [rotate_getD_reduce _ hTN hT j hlen2 hjT]
    set m := (j / bpl + (T - N)) % T with hm
    have hmT : m < T := Nat.mod_lt _ hT
    have hidx : m * bpl + j % bpl < T * bpl := rotate_index_lt hmT hjT
    rw [rotate_getD_reduce frame hN0 hT _ hlen hidx]
    have hdiv2 : (m * bpl + j % bpl) / bpl = m := by
      rw [mul_comm m bpl, Nat.mul_add_div hbpl, Nat.div_eq_of_lt (Nat.mod_lt j hbpl),
        add_zero]
    have hmod2 : (m * bpl + j % bpl) % bpl = j % bpl := by
      rw [mul_comm m bpl, Nat.mul_add_mod, Nat.mod_mod_of_dvd j (dvd_refl bpl)]
    have hfinal : (m + N) % T = j / bpl := by
      rw [hm, Nat.mod_add_mod]
      have harith : j / bpl + (T - N) + N = j / bpl + T := by omega
      rw [harith, Nat.add_mod_right, Nat.mod_eq_of_lt hdiv]
    rw [hdiv2, hmod2, hfinal, div_mul_add_mod_self j bpl hbpl]

/-- C6 witness: a concrete 2-zone RGB frame rotated by 1 and then by 2-1. -/
theorem rotate_complementary_witness :
    rotate_led_frame (rotate_led_frame [10, 20, 30, 40, 50, 60] 1 2 3) (2 - 1) 2 3
      = [10, 20, 30, 40, 50, 60] :=
  rotate_complementary [10, 20, 30, 40, 50, 60] 1 2 3 (by decide) (by decide)

/-- C7: for target zone count `T ≥ 1`, source zone count `S ≥ 1` and target
index `t < T`, the resampler reads source index `t * S / T` (floor); when
`T = S` the mapping is the identity, and when `T = 2S` target `t` reads
source `t / 2`, so each source index `s` feeds exactly the two consecutive
target indices `2s` and `2s + 1`. -/
theorem src_index_mapping (S T t : ℕ) (hS : 1 ≤ S) (ht : t < T) :
    src_index t S T = t * S / T ∧
    (T = S → src_index t S T = t) ∧
    (T = 2 * S → src_index t S T = t / 2 ∧
      ∀ s, s < S → (src_index t S T = s ↔ t = 2 * s ∨ t = 2 * s + 1)) := by
  have hT : 0 < T := by omega
  have hbase : src_index t S T = t * S / T := by simp [src_index, hT]
  refine ⟨hbase, ?_, ?_⟩
  · intro hTS
    rw [hbase, hTS, Nat.mul_div_cancel t (by omega : 0 < S)]
  · intro hT2
    have hhalf : src_index t S T = t / 2 := by
      rw [hbase, hT2, Nat.mul_div_mul_right t 2 (by omega : 0 < S)]
    refine ⟨hhalf, fun s _ => ?_⟩
    rw [hhalf]
    omega

/-- C7 witness: with `S = 2` source zones and `T = 4` target zones, target
index 3 reads source index 1 and source 1 feeds exactly targets 2 and 3. -/
theorem src_index_mapping_witness :
    src_index 3 2 4 = 3 * 2 / 4 ∧
    (4 = 2 → src_index 3 2 4 = 3) ∧
    (4 = 2 * 2 → src_index 3 2 4 = 3 / 2 ∧
      ∀ s, s < 2 → (src_index 3 2 4 = s ↔ 3 = 2 * s ∨ 3 = 2 * s + 1)) :=
  src_index_mapping 2 4 3 (by decide) (by decide)

/-- C10: when the per-edge zone counts sum to `S ≥ 1`, every source-payload
read of the resampler, pipeline or EMA initialization, at offset
`src_index t S T * bpl + c` with `c < bpl`, is within the payload length
`S * bpl`; when `S = 0`, the same unguarded offsets are out of bounds of the
(empty) loaded payloads. -/
theorem src_read_bounds (S T bpl t c : ℕ) (ht : t < T) (hc : c < bpl) :
    (1 ≤ S → src_index t S T * bpl + c < S * bpl) ∧
    (S = 0 → ∀ payload : List ℕ, payload.length = S * bpl →
      ¬ src_index t S T * bpl + c < payload.length) := by
  constructor
  · intro hS
    have hT : 0 < T := by omega
    have hidx : src_index t S T < S := by
      rw [show src_index t S T = t * S / T from by simp [src_index, hT]]
      refine (Nat.div_lt_iff_lt_mul hT).mpr ?_
      calc t * S < T * S := (Nat.mul_lt_mul_right (show 0 < S by omega)).mpr ht
        _ = S * T := Nat.mul_comm T S
    have h2 : (src_index t S T + 1) * bpl ≤ S * bpl := Nat.mul_le_mul_right bpl hidx
    have h3 : src_index t S T * bpl + c < (src_index t S T + 1) * bpl := by
      rw [add_mul, one_mul]; omega
    omega
  · intro hS payload hlen
    rw [hS, Nat.zero_mul] at hlen
    omega

/-- C5: after loading, the number of stored timestamps equals the number of
stored frames, every stored payload has length `frame_size` (the summed
source zone count times bytes per zone), and a trailing record whose payload
could not be fully read is never stored — its timestamp is discarded with
it. -/
theorem loader_invariants (h : Header) :
    (∀ bs : List ℕ,
      (loadFrames (frame_size h) bs).1.length = (loadFrames (frame_size h) bs).2.length ∧
      ∀ p ∈ (loadFrames (frame_size h) bs).2, p.length = frame_size h) ∧
    (∀ recs : List (List ℕ × List ℕ),
      (∀ r ∈ recs, r.1.length = 8 ∧ r.2.length = frame_size h) →
      ∀ tsb short : List ℕ, tsb.length = 8 → short.length < frame_size h →
        loadFrames (frame_size h) (mk_stream recs ++ (tsb ++ short)) =
          (recs.map fun r => leNum r.1, recs.map fun r => r.2)) :=
  ⟨fun bs => loadFrames_invariant (frame_size h) bs,
   fun recs hr tsb short hts hshort =>
     loadFrames_drops_trailing (frame_size h) recs hr tsb short hts hshort⟩

/-- C5 witness: a 2-zone RGB header, one complete record followed by a
truncated trailing record; only the complete record is stored. -/
theorem loader_invariants_witness :
    loadFrames (frame_size ⟨24, 2, 0, 0, 0, false⟩)
        (mk_stream [([1, 0, 0, 0, 0, 0, 0, 0], [9, 9, 9, 9, 9, 9])] ++
          ([2, 0, 0, 0, 0, 0, 0, 0] ++ [1, 2, 3])) =
      ([([1, 0, 0, 0, 0, 0, 0, 0], [9, 9, 9, 9, 9, 9])].map fun r => leNum r.1,
       [([1, 0, 0, 0, 0, 0, 0, 0], [9, 9, 9, 9, 9, 9])].map fun r => r.2) :=
  (loader_invariants ⟨24, 2, 0, 0, 0, false⟩).2
    [([1, 0, 0, 0, 0, 0, 0, 0], [9, 9, 9, 9, 9, 9])] (by decide)
    [2, 0, 0, 0, 0, 0, 0, 0] [1, 2, 3] (by decide) (by decide)

/-- C3 counterexample: a stream whose 4-byte magic is the legacy-style tag
`AMb1` (`0x41 0x4D 0x62 0x31`, followed by a plausible legacy header: an f32
frame rate, a u16 zone count, a u16 rotation offset and a format byte) is
rejected with the fatal `Invalid magic header` error, so the loader does not
accept a second, legacy schema: only `AMb2` is recognized. -/
theorem legacy_magic_rejected :
    parseHeader ([0x41, 0x4D, 0x62, 0x31] ++
        ([0, 0, 192, 65] ++ [2, 0] ++ [0, 0] ++ [0])) =
      .error "Invalid magic header" := rfl

/-- C3 amended: the loader recognizes exactly one magic tag, `AMb2`; under it
the header is parsed and the remainder of the stream is handed to the frame
loader, while every other 4-byte magic — the legacy tag included — fails
fatally with `Invalid magic header`. -/
theorem magic_gate (fpsB t2 b2 l2 r2 : List ℕ) (fmt : ℕ) (rest : List ℕ)
    (hf : fpsB.length = 4) (ht : t2.length = 2) (hb : b2.length = 2)
    (hl : l2.length = 2) (hr : r2.length = 2) :
    (∃ hd, load_stream
        (magicAMb2 ++ (fpsB ++ (t2 ++ (b2 ++ (l2 ++ (r2 ++ ([fmt] ++ rest))))))) =
        .ok (hd, loadFrames (frame_size hd) rest)) ∧
    (∀ m junk : List ℕ, m.length = 4 → m ≠ magicAMb2 →
      parseHeader (m ++ junk) = .error "Invalid magic header") := by
  constructor
  · refine ⟨{ fps := fps_of_bits (decodeF32 (leNum fpsB)), top_src := leNum t2,
              bottom_src := leNum b2, left_src := leNum l2, right_src := leNum r2,
              rgbw := leNum [fmt] == 1 }, ?_⟩
    unfold load_stream parseHeader
    rw [readExact_append 4 magicAMb2 _ rfl]
    simp only []
    simp only [if_true]
    rw [show (fpsB ++ (t2 ++ (b2 ++ (l2 ++ (r2 ++ ([fmt] ++ rest)))))).drop 4 =
        t2 ++ (b2 ++ (l2 ++ (r2 ++ ([fmt] ++ rest)))) from by rw [← hf, List.drop_left]]
    rw [readExact_append 2 t2 _ ht]
    simp only []
    rw [readExact_append 2 b2 _ hb]
    simp only []
    rw [readExact_append 2 l2 _ hl]
    simp only []
    rw [readExact_append 2 r2 _ hr]
    simp only []
    rw [readExact_append 1 [fmt] rest rfl]
    simp only []
    rw [readExact_append 4 fpsB _ hf]
    simp only [Option.some_bind]
    rfl
  · intro m junk hm hne
    unfold parseHeader
    rw [readExact_append 4 m junk hm]
    simp only []
    rw [if_neg hne]

/-- C3 witness: the single-magic gate applied to a concrete well-formed
`AMb2` header and to a concrete non-`AMb2` magic. -/
theorem magic_gate_witness :
    parseHeader ([0x41, 0x4D, 0x62, 0x31] ++ [7, 7, 7, 7]) =
      .error "Invalid magic header" :=
  (magic_gate [0, 0, 192, 65] [2, 0] [0, 0] [0, 0] [0, 0] 0 []
      (by decide) (by decide) (by decide) (by decide) (by decide)).2
    [0x41, 0x4D, 0x62, 0x31] [7, 7, 7, 7] (by decide) (by decide)

/-- C10 witness: in bounds for `S = 2, T = 4, bpl = 3, t = 3, c = 2`, and out
of bounds of the empty payload for `S = 0`. -/
theorem src_read_bounds_witness :
    (1 ≤ 2 → src_index 3 2 4 * 3 + 2 < 2 * 3) ∧
    (2 = 0 → ∀ payload : List ℕ, payload.length = 2 * 3 →
      ¬ src_index 3 2 4 * 3 + 2 < payload.length) :=
  src_read_bounds 2 4 3 3 2 (by decide) (by decide)

/-- C8: for nonnegative smoothed accumulator values (the engine's invariant),
the floor stage leaves every output channel either zero or at least its
configured floor `base_floor × boost`; a channel whose rounded smoothed
output is positive but below its floor is raised exactly to the floor unless
the whole zone is zeroed; and the produced zone is either all-zero or has
luminance at least half the base floor (the sub-threshold zones are
zeroed). -/
theorem min_floor_spec (min_b rB gB bB aR aG aB : ℚ)
    (hR : 0 ≤ aR) (hG : 0 ≤ aG) (hB : 0 ≤ aB) :
    ((floor_stage min_b rB gB bB aR aG aB).1 = 0 ∨
      min_b * rB ≤ (floor_stage min_b rB gB bB aR aG aB).1) ∧
    ((floor_stage min_b rB gB bB aR aG aB).2.1 = 0 ∨
      min_b * gB ≤ (floor_stage min_b rB gB bB aR aG aB).2.1) ∧
    ((floor_stage min_b rB gB bB aR aG aB).2.2 = 0 ∨
      min_b * bB ≤ (floor_stage min_b rB gB bB aR aG aB).2.2) ∧
    (0 < rustRound aR → rustRound aR < min_b * rB →
      (floor_stage min_b rB gB bB aR aG aB).1 = min_b * rB ∨
      floor_stage min_b rB gB bB aR aG aB = (0, 0, 0)) ∧
    (0 < rustRound aG → rustRound aG < min_b * gB →
      (floor_stage min_b rB gB bB aR aG aB).2.1 = min_b * gB ∨
      floor_stage min_b rB gB bB aR aG aB = (0, 0, 0)) ∧
    (0 < rustRound aB → rustRound aB < min_b * bB →
      (floor_stage min_b rB gB bB aR aG aB).2.2 = min_b * bB ∨
      floor_stage min_b rB gB bB aR aG aB = (0, 0, 0)) ∧
    (floor_stage min_b rB gB bB aR aG aB = (0, 0, 0) ∨
      min_b * (1/2) ≤ zone_lum (floor_stage min_b rB gB bB aR aG aB).1
        (floor_stage min_b rB gB bB aR aG aB).2.1
        (floor_stage min_b rB gB bB aR aG aB).2.2) := by
  have h0R : 0 ≤ rustRound aR := rustRound_nonneg hR
  have h0G : 0 ≤ rustRound aG := rustRound_nonneg hG
  have h0B : 0 ≤ rustRound aB := rustRound_nonneg hB
  simp only [floor_stage]
  generalize hR1 : (if 0 < rustRound aR ∧ rustRound aR < min_b * rB
    then min_b * rB else rustRound aR) = r1
  generalize hG1 : (if 0 < rustRound aG ∧ rustRound aG < min_b * gB
    then min_b * gB else rustRound aG) = g1
  generalize hB1 : (if 0 < rustRound aB ∧ rustRound aB < min_b * bB
    then min_b * bB else rustRound aB) = b1
  have hfloor_r : r1 = 0 ∨ min_b * rB ≤ r1 := by
    rw [← hR1]
    by_cases hc : 0 < rustRound aR ∧ rustRound aR < min_b * rB
    · rw [if_pos hc]; right; rfl
    · rw [if_neg hc]
      push_neg at hc
      rcases lt_or_le (rustRound aR) (min_b * rB) with hlt | hle
      · left; rcases (lt_or_eq_of_le h0R) with hpos | heq
        · exact absurd (hc hpos) (not_le.mpr hlt)
        · exact heq.symm
      · right; exact hle
  have hfloor_g : g1 = 0 ∨ min_b * gB ≤ g1 := by
    rw [← hG1]
    by_cases hc : 0 < rustRound aG ∧ rustRound aG < min_b * gB
    · rw [if_pos hc]; right; rfl
    · rw [if_neg hc]
      push_neg at hc
      rcases lt_or_le (rustRound aG) (min_b * gB) with hlt | hle
      · left; rcases (lt_or_eq_of_le h0G) with hpos | heq
        · exact absurd (hc hpos) (not_le.mpr hlt)
        · exact heq.symm
      · right; exact hle
  have hfloor_b : b1 = 0 ∨ min_b * bB ≤ b1 := by
    rw [← hB1]
    by_cases hc : 0 < rustRound aB ∧ rustRound aB < min_b * bB
    · rw [if_pos hc]; right; rfl
    · rw [if_neg hc]
      push_neg at hc
      rcases lt_or_le (rustRound aB) (min_b * bB) with hlt | hle
      · left; rcases (lt_or_eq_of_le h0B) with hpos | heq
        · exact absurd (hc hpos) (not_le.mpr hlt)
        · exact heq.symm
      · right; exact hle
  have hraise_r : 0 < rustRound aR → rustRound aR < min_b * rB → r1 = min_b * rB := by
    intro h1 h2; rw [← hR1, if_pos ⟨h1, h2⟩]
  have hraise_g : 0 < rustRound aG → rustRound aG < min_b * gB → g1 = min_b * gB := by
    intro h1 h2; rw [← hG1, if_pos ⟨h1, h2⟩]
  have hraise_b : 0 < rustRound aB → rustRound aB < min_b * bB → b1 = min_b * bB := by
    intro h1 h2; rw [← hB1, if_pos ⟨h1, h2⟩]
  by_cases hlum : zone_lum r1 g1 b1 < min_b * (1/2)
  · rw [if_pos hlum]
    exact ⟨Or.inl rfl, Or.inl rfl, Or.inl rfl,
      fun _ _ => Or.inr rfl, fun _ _ => Or.inr rfl, fun _ _ => Or.inr rfl, Or.inl rfl⟩
  · rw [if_neg hlum]
    exact ⟨hfloor_r, hfloor_g, hfloor_b,
      fun h1 h2 => Or.inl (hraise_r h1 h2),
      fun h1 h2 => Or.inl (hraise_g h1 h2),
      fun h1 h2 => Or.inl (hraise_b h1 h2),
      Or.inr (le_of_not_lt hlum)⟩

/-- C8 witness: base floor 10 with red boost 2 — a smoothed red channel of 5
is below the floor 20, the zone survives the luminance gate thanks to its
green channel. -/
theorem min_floor_spec_witness :
    (0 : ℚ) ≤ 5 ∧
    ((floor_stage 10 2 1 1 5 30 0).1 = 0 ∨
      (10 : ℚ) * 2 ≤ (floor_stage 10 2 1 1 5 30 0).1) :=
  ⟨by decide, (min_floor_spec 10 2 1 1 5 30 0 (by decide) (by decide) (by decide)).1⟩



set_option maxHeartbeats 2000000 in
/-- C2 counterexample: in Scenario A the first transmitted frame is not the
raw payload `[255,0,0,0,255,0]` — the brightness-normalization stage scales
it by `(60 / 118.2945) * 0.7 + 0.3 ≈ 0.655`, giving `[167,0,0,0,167,0]`. -/
theorem scenario_a_not_identity : scenario_a_out0 powId ≠ [255, 0, 0, 0, 255, 0] := by
  norm_num [scenario_a_out0, tick_output, process_frame, process_zone, ema_init,
    avg_lum, zone_lum, brightness_factor_of, floor_stage, clamp_f, rustRound,
    f32_as_u8, src_index, powId, scenario_a_cfg, scenario_a_frame0,
    List.range_succ, List.foldl_append, remap_order_rgb, Int.toNat_ofNat,
    Int.floor_eq_iff]
  all_goals decide

set_option maxHeartbeats 4000000 in
/-- C2 amended: under Scenario A's settings every stage except brightness
normalization is the identity, so each transmitted byte is the raw byte
scaled by the frame's brightness factor and rounded: frame 0 (average raw
luminance 118.29, factor 1549767/2365890) yields `[167,0,0,0,167,0]` and
frame 1 (average 127.5, factor 107/170) yields `[0,0,161,161,161,0]` — not
the raw payloads.  `pw` is any power primitive exact at exponent 1, the only
exponent the scenario reaches. -/
theorem scenario_a_outputs (pw : ℚ → ℚ → ℚ) (hpw : ∀ x : ℚ, pw x 1 = x) :
    scenario_a_out0 pw = [167, 0, 0, 0, 167, 0] ∧
    scenario_a_out1 pw = [0, 0, 161, 161, 161, 0] := by
  have hc : ∀ raw acc, process_frame pw scenario_a_cfg 2 2 3 1 raw acc =
      process_frame powId scenario_a_cfg 2 2 3 1 raw acc :=
    fun raw acc => process_frame_pw pw hpw scenario_a_cfg rfl rfl rfl rfl 2 2 3 1 raw acc
  constructor
  · rw [scenario_a_out0, tick_output]
    simp only [hc]
    norm_num [tick_output, process_frame, process_zone, ema_init,
      avg_lum, zone_lum, brightness_factor_of, floor_stage, clamp_f, rustRound,
      f32_as_u8, src_index, powId, scenario_a_cfg, scenario_a_frame0,
      List.range_succ, List.foldl_append, remap_order_rgb, Int.toNat_ofNat,
      Int.floor_eq_iff]
    all_goals decide
  · rw [scenario_a_out1, scenario_a_acc0]
    simp only [tick_output]
    simp only [hc]
    norm_num [tick_output, process_frame, process_zone, ema_init,
      avg_lum, zone_lum, brightness_factor_of, floor_stage, clamp_f, rustRound,
      f32_as_u8, src_index, powId, scenario_a_cfg, scenario_a_frame0, scenario_a_frame1,
      List.range_succ, List.foldl_append, remap_order_rgb, Int.toNat_ofNat,
      Int.floor_eq_iff]
    all_goals decide

/-- C2 witness: the amended claim instantiated at the exact power primitive
for exponent 1. -/
theorem scenario_a_outputs_witness :
    (∀ x : ℚ, powId x 1 = x) ∧ scenario_a_out0 powId = [167, 0, 0, 0, 167, 0] :=
  ⟨fun _ => rfl, (scenario_a_outputs powId (fun _ => rfl)).1⟩


/-- C1 counterexample: the first pause entry transmits one blank frame, but
after a resume (one frame played) the second pause entry transmits nothing —
`SENT_BLANK_ON_PAUSE` is a process-wide `static mut` latch that is never
reset (main.rs lines 298-314), so the blank-sent marker is not per pause
entry. -/
theorem second_pause_entry_no_blank :
    st_p1.sent = [[0, 0, 0, 0, 0, 0]] ∧
    st_p2.sent = [[0, 0, 0, 0, 0, 0], [1, 1, 1, 1, 1, 1]] ∧
    st_p2.last_paused = false ∧
    (apply_command Command.pause st_p2).paused = true ∧
    st_p3.sent = st_p2.sent ∧
    st_p3.sent_blank_on_pause = true := by
  refine ⟨rfl, rfl, rfl, rfl, rfl, rfl⟩

/-- C1 amended: while paused with the blank-sent latch unset, a tick
transmits exactly one all-zero frame of target length, sets the latch and
does not advance the frame index; while paused with the latch set it
transmits nothing and does not advance; the latch, once set, is never unset
by a tick, and a RESUME command does not reset it — so only the first pause
entry of the process ever transmits a blank frame. -/
theorem pause_blank_latch (P : Params) (now : ℚ) (st : PlayerState)
    (hrun : st.running = true) (hfi : st.frame_index < P.frames_count)
    (hseek : st.seek_target = none) :
    (st.paused = true → st.sent_blank_on_pause = false →
      (tick P now st).sent = st.sent ++ [blank_frame P] ∧
      (tick P now st).sent_blank_on_pause = true ∧
      (tick P now st).frame_index = st.frame_index) ∧
    (st.paused = true → st.sent_blank_on_pause = true →
      (tick P now st).sent = st.sent ∧
      (tick P now st).frame_index = st.frame_index) ∧
    (st.sent_blank_on_pause = true → (tick P now st).sent_blank_on_pause = true) ∧
    (apply_command Command.resume st).sent_blank_on_pause = st.sent_blank_on_pause ∧
    (blank_frame P).length = P.total_tgt * P.bytes_per_led ∧
    (∀ x ∈ blank_frame P, x = 0) := by
  have hfi' : ¬ P.frames_count ≤ st.frame_index := not_le.mpr hfi
  refine ⟨?_, ?_, ?_, ?_, by simp [blank_frame], fun x hx => List.eq_of_mem_replicate hx⟩
  · intro hp hsb
    cases hl : st.last_paused <;>
      simp [tick, seek_step, hseek, hp, hsb, hl, hrun, hfi']
  · intro hp hsb
    cases hl : st.last_paused <;>
      simp [tick, seek_step, hseek, hp, hsb, hl, hrun, hfi']
  · intro hsb
    cases hp : st.paused <;> cases hl : st.last_paused <;>
      simp [tick, seek_step, hseek, hp, hsb, hl, hrun, hfi']
  · simp [apply_command]

/-- C1 witness: the latch theorem applied to the concrete first pause
entry. -/
theorem pause_blank_latch_witness :
    (tick params_demo 1 (apply_command Command.pause st_start)).sent =
      (apply_command Command.pause st_start).sent ++ [blank_frame params_demo] ∧
    (tick params_demo 1 (apply_command Command.pause st_start)).frame_index =
      (apply_command Command.pause st_start).frame_index :=
  ⟨((pause_blank_latch params_demo 1 (apply_command Command.pause st_start)
      rfl (by decide) rfl).1 rfl rfl).1,
   ((pause_blank_latch params_demo 1 (apply_command Command.pause st_start)
      rfl (by decide) rfl).1 rfl rfl).2.2⟩


/-- C4 counterexample: observing a pending seek target recomputes the frame
index, resets the time base and anchor and clears the target, but leaves the
temporal-smoothing accumulator untouched (`ema_acc` is not reset anywhere in
main.rs lines 272-284), refuting the fourth claimed reset. -/
theorem seek_keeps_smoothing :
    st_seek.seek_target = some 1 ∧
    st_seek.ema_acc = some [42] ∧
    (seek_step params_demo 7 st_seek).seek_target = none ∧
    (seek_step params_demo 7 st_seek).elapsed_base = 0 ∧
    (seek_step params_demo 7 st_seek).anchor = 7 ∧
    (seek_step params_demo 7 st_seek).ema_acc = some [42] := by
  refine ⟨rfl, rfl, rfl, rfl, rfl, rfl⟩

/-- C4 amended: on every observed seek target the engine recomputes the
frame index and start frame from the target timestamp, resets the
elapsed-time base and the wall-clock anchor and clears the pending target —
but it does not reset the temporal-smoothing accumulator, which persists
across the seek (the next processed frame blends into the stale values). -/
theorem seek_resets (P : Params) (now : ℚ) (st : PlayerState) (sec : ℚ)
    (hseek : st.seek_target = some sec) :
    (seek_step P now st).frame_index =
      min (first_ge P.timestamps_us (qToU64 ((sec + P.adaptive_sync_lead) * 1000000)))
        P.frames_count ∧
    (seek_step P now st).start_frame = min (seek_step P now st).frame_index P.frames_count ∧
    (seek_step P now st).elapsed_base = 0 ∧
    (seek_step P now st).anchor = now ∧
    (seek_step P now st).seek_target = none ∧
    (seek_step P now st).ema_acc = st.ema_acc := by
  simp [seek_step, hseek]

/-- C4 witness: the seek handler applied to the concrete pending-seek
state. -/
theorem seek_resets_witness :
    st_seek.seek_target = some 1 ∧
    (seek_step params_demo 7 st_seek).ema_acc = st_seek.ema_acc :=
  ⟨rfl, (seek_resets params_demo 7 st_seek 1 rfl).2.2.2.2.2⟩

/-- C9: a STOP command (which requests a blank and clears the running flag)
and an external interrupt (which clears the running flag) both make the
blank-on-exit block run before the process ends, appending three all-zero
datagrams of length `total_tgt * bytes_per_led` — so at least one all-zero
datagram of target length is sent after the stop and before exit. -/
theorem stop_blanks (P : Params) (st : PlayerState) :
    blank_frame P ∈ ((final_blanks P (apply_command Command.stop st)).sent.drop
      st.sent.length) ∧
    blank_frame P ∈ ((final_blanks P (interrupt st)).sent.drop st.sent.length) ∧
    (blank_frame P).length = P.total_tgt * P.bytes_per_led ∧
    (∀ x ∈ blank_frame P, x = 0) := by
  refine ⟨?_, ?_, by simp [blank_frame], fun x hx => List.eq_of_mem_replicate hx⟩
  · have hsent : (final_blanks P (apply_command Command.stop st)).sent =
        st.sent ++ List.replicate 3 (blank_frame P) := by
      simp [final_blanks, apply_command]
    rw [hsent, List.drop_left]
    exact List.mem_replicate.mpr ⟨by omega, rfl⟩
  · have hsent : (final_blanks P (interrupt st)).sent =
        st.sent ++ List.replicate 3 (blank_frame P) := by
      simp [final_blanks, interrupt]
    rw [hsent, List.drop_left]
    exact List.mem_replicate.mpr ⟨by omega, rfl⟩

end Ambilight
